import Mathlib

/-!
Shallow embedding of the `billing` CLI module (cmd/billing/billing.go) of
vultr-cli: the command tree built by `NewCmdBilling`, its pre-run
authentication guard, positional-argument validators, the four leaf run
bodies, and the four thin request methods on the `options` struct.

The external API client (govultr), the CLI framework dispatch (cobra), the
`utils` helpers and the printer are collaborators whose relevant behaviour is
modelled explicitly; response data flows through pure functions supplied by a
`BillingClient` record, and every client call a run body issues is recorded
in an explicit call list so that claims about "zero network calls" are
statements about that list.
-/

namespace Billing

/-- Paging options carried on each list request (govultr.ListOptions:
the `Cursor` and `PerPage` fields used by this module). -/
structure ListOptions where
  cursor : String
  perPage : Int
deriving DecidableEq, Repr

/-- Pagination metadata returned alongside list results (govultr.Meta),
forwarded unmodified to the display layer. -/
structure Meta where
  total : Int
  nextCursor : String
  prevCursor : String
deriving DecidableEq, Repr

/-- A billing-history ledger entry (govultr.History); fields are opaque to
this module and merely passed through. -/
structure History where
  id : Int
  description : String
  amount : Int
deriving DecidableEq, Repr

/-- A billing invoice (govultr.Invoice); fields are opaque to this module. -/
structure Invoice where
  id : Int
  description : String
  amount : Int
deriving DecidableEq, Repr

/-- A line item of an invoice (govultr.InvoiceItem); opaque pass-through. -/
structure InvoiceItem where
  description : String
  total : Int
deriving DecidableEq, Repr

/-- Result of a collaborator list call: items, optional meta, optional error
(Go returns `(items, meta, resp, err)`; the ignored HTTP response is dropped
exactly as the source's request methods drop it). A Go `error` is modelled as
`Option String` (`none` = nil). -/
structure ListResp (α : Type) where
  items : List α
  meta : Option Meta
  err : Option String
deriving DecidableEq

/-- Result of the collaborator get call: a possibly-nil invoice pointer and an
optional error. -/
structure GetResp where
  invoice : Option Invoice
  err : Option String
deriving DecidableEq, Repr

/-- The external billing API client consumed through its interface:
`ListHistory`, `GetInvoice`, `ListInvoices`, `ListInvoiceItems`. Each is a
pure response function; the context argument of the Go calls carries no data
this module reads and is omitted. -/
structure BillingClient where
  listHistoryResp : ListOptions → ListResp History
  getInvoiceResp : String → GetResp
  listInvoicesResp : ListOptions → ListResp Invoice
  listInvoiceItemsResp : Int → ListOptions → ListResp InvoiceItem

/-- The shared base context (pkg/cli `cli.Base`): the fields this module
reads or writes — the authentication flag, the API client, the positional
arguments set by `utils.SetOptions`, and the per-invocation paging options
set by the run bodies. -/
structure Base where
  hasAuth : Bool
  client : BillingClient
  args : List String
  opts : ListOptions

/-- The `options` struct of cmd/billing/billing.go: the shared base plus the
per-invocation invoice-item ID. -/
structure options where
  Base : Base
  InvoiceItemID : Int

/-- `options.listHistory`: delegate to `Client.Billing.ListHistory(ctx,
b.Base.Options)`, dropping the HTTP response. -/
def options.listHistory (b : options) : List History × Option Meta × Option String :=
  let r := b.Base.client.listHistoryResp b.Base.opts
  (r.items, r.meta, r.err)

/-- `options.get`: delegate to `Client.Billing.GetInvoice(ctx, b.Base.Args[0])`,
passing the raw first positional argument string. (`Args[0]` is only read
after the Args validator has ensured the list is nonempty; the `getD` default
is never reached on executed paths.) -/
def options.get (b : options) : Option Invoice × Option String :=
  let r := b.Base.client.getInvoiceResp (b.Base.args.getD 0 "")
  (r.invoice, r.err)

/-- `options.listInvoices`: delegate to `Client.Billing.ListInvoices(ctx,
b.Base.Options)`. -/
def options.listInvoices (b : options) : List Invoice × Option Meta × Option String :=
  let r := b.Base.client.listInvoicesResp b.Base.opts
  (r.items, r.meta, r.err)

/-- `options.listInvoiceItems`: delegate to
`Client.Billing.ListInvoiceItems(ctx, b.InvoiceItemID, b.Base.Options)`. -/
def options.listInvoiceItems (b : options) : List InvoiceItem × Option Meta × Option String :=
  let r := b.Base.client.listInvoiceItemsResp b.InvoiceItemID b.Base.opts
  (r.items, r.meta, r.err)

/-- Modelled from the spec: `utils.PerPageDefault` (utils package, not under
src/) — "page size (integer, default 100, documented max 500)"; the flag
registrations in billing.go use it as the per-page default and document
"Default is 100 and Max is 500". -/
def PerPageDefault : Int := 100

/-- Modelled from the spec: `utils.APIKeyError` (utils package, not under
src/) — the authentication-missing error message returned by the pre-run
guard when the shared context has no credential. -/
def APIKeyError : String := "please provide a Vultr API key"

/-- The resolved values of the `--cursor` and `--per-page` flags of one
invocation, after the CLI framework has applied the defaults registered in
`NewCmdBilling` (cursor `""`, per-page `utils.PerPageDefault`). -/
structure ParsedFlags where
  cursor : String
  perPage : Int
deriving DecidableEq, Repr

/-- Flag resolution as registered in `NewCmdBilling`: an omitted `--cursor`
yields `""` and an omitted `--per-page` yields `PerPageDefault`. -/
def resolveFlags (cursorFlag : Option String) (perPageFlag : Option Int) : ParsedFlags :=
  { cursor := cursorFlag.getD "", perPage := perPageFlag.getD PerPageDefault }

/-- Modelled from the spec: `utils.GetPaging` (utils package, not under
src/) — "the leaf's run action extracts paging/positional options from the
parsed command"; paging options "are read fresh from command-line flags on
every invocation and carried on a per-call options struct". It carries the
resolved flag values over unmodified. -/
def GetPaging (fl : ParsedFlags) : ListOptions :=
  { cursor := fl.cursor, perPage := fl.perPage }

/-- The Go `*strconv.NumError` message produced by `strconv.Atoi`. -/
def atoiNumError (s reason : String) : String :=
  "strconv.Atoi: parsing \"" ++ s ++ "\": " ++ reason

/-- Accumulate a nonempty all-digit character list into a number; `none` on an
empty list or any non-digit character. -/
def digitsToNat (cs : List Char) : Option Nat :=
  if cs.isEmpty then none
  else cs.foldl
    (fun acc c => acc.bind (fun n => if c.isDigit then some (10 * n + (c.toNat - 48)) else none))
    (some 0)

def int64Max : Int := 9223372036854775807

def int64Min : Int := -9223372036854775808

/-- Go `strconv.Atoi`: base-10, optional single leading sign, at least one
digit, result within the 64-bit `int` range; invalid syntax and out-of-range
inputs produce the corresponding `*strconv.NumError` messages. -/
def Atoi (s : String) : Except String Int :=
  let parse : Bool → List Char → Except String Int := fun neg cs =>
    match digitsToNat cs with
    | none => .error (atoiNumError s "invalid syntax")
    | some n =>
      let v : Int := if neg then -(n : Int) else (n : Int)
      if v < int64Min ∨ int64Max < v then .error (atoiNumError s "value out of range")
      else .ok v
  match s.data with
  | [] => .error (atoiNumError s "invalid syntax")
  | '+' :: rest => parse false rest
  | '-' :: rest => parse true rest
  | _ => parse false s.data

/-- The display-adapter values handed to `Printer.Display`. Modelled from the
spec for the adapter types themselves (defined in the billing package's
printer file, not under src/): each wraps one result shape, holding the
fetched values unmodified; the field names appear in the composite literals
of billing.go. -/
structure BillingInvoicesPrinter where
  Invoices : List Invoice
  Meta : Option Meta
deriving DecidableEq

structure BillingInvoicePrinter where
  Invoice : Invoice
deriving DecidableEq

structure BillingInvoiceItemsPrinter where
  InvoiceItems : List InvoiceItem
  Meta : Option Meta
deriving DecidableEq

structure BillingHistoryPrinter where
  Billing : List History
  Meta : Option Meta
deriving DecidableEq

/-- The adapter value a run body hands to the shared printer. -/
inductive PrinterData where
  | invoicesData (p : BillingInvoicesPrinter)
  | invoiceData (p : BillingInvoicePrinter)
  | invoiceItemsData (p : BillingInvoiceItemsPrinter)
  | historyData (p : BillingHistoryPrinter)
deriving DecidableEq

/-- Observable outcome of one leaf invocation. `preRunError` is the pre-run
guard returning an error to the framework before the run body; `argsError` is
the Args validator returning an error before the run body; `exitError` is
`printer.Error(...)` followed by `os.Exit(1)` inside a run body;
`nilPointerPanic` is the Go runtime fault from dereferencing a nil invoice
pointer; `displayed` is `o.Base.Printer.Display(data, err)` reached at the end
of a run body. -/
inductive CmdOutcome where
  | preRunError (msg : String)
  | argsError (msg : String)
  | exitError (msg : String)
  | nilPointerPanic
  | displayed (data : PrinterData) (err : Option String)
deriving DecidableEq

/-- One network request issued to the API client. -/
inductive ClientCall where
  | callListHistory (opts : ListOptions)
  | callGetInvoice (id : String)
  | callListInvoices (opts : ListOptions)
  | callListInvoiceItems (id : Int) (opts : ListOptions)
deriving DecidableEq

/-- Modelled from the spec: process exit status — "Exit codes: `0` on
success; `1` on any retrieval/validation error (process terminates
immediately via an explicit abort after printing the error)". A Go runtime
panic aborts the process with status 2. -/
def exitCode : CmdOutcome → Nat
  | .preRunError _ => 1
  | .argsError _ => 1
  | .exitError _ => 1
  | .nilPointerPanic => 2
  | .displayed _ _ => 0

/-- The four leaf commands of the billing subtree. -/
inductive LeafCmd where
  | historyList
  | invoicesList
  | invoiceGet
  | invoiceItemsList
deriving DecidableEq

/-- The `Args` validator shared by `invoiceGet` and `invoiceItemsList`:
error when no positional argument is supplied. -/
def requireInvoiceID (args : List String) : Option String :=
  if args.length < 1 then some "please provide an invoice ID" else none

/-- The `Args` field of each leaf as set in `NewCmdBilling`: only
`invoiceGet` and `invoiceItemsList` register a validator. -/
def argsValidator : LeafCmd → List String → Option String
  | .invoiceGet, args => requireInvoiceID args
  | .invoiceItemsList, args => requireInvoiceID args
  | _, _ => none

/-- `invoicesList.Run`: set `o.Base.Options` from the paging flags, call
`o.listInvoices()`; on error print "error retrieving billing invoice list :
<cause>" and exit 1; on success wrap the result in `BillingInvoicesPrinter`
and display it. -/
def invoicesListRun (o : options) (fl : ParsedFlags) : CmdOutcome × List ClientCall :=
  let opts := GetPaging fl
  let o := { o with Base := { o.Base with opts := opts } }
  let res := o.listInvoices
  let calls := [ClientCall.callListInvoices opts]
  match res.2.2 with
  | some e => (.exitError ("error retrieving billing invoice list : " ++ e), calls)
  | none => (.displayed (.invoicesData { Invoices := res.1, Meta := res.2.1 }) none, calls)

/-- `invoiceGet.Run`: call `o.get()`; on error print "error getting invoice :
<cause>" and exit 1; otherwise dereference the returned invoice pointer
(`*inv`, a runtime panic when it is nil), wrap it in `BillingInvoicePrinter`
and display it. -/
def invoiceGetRun (o : options) : CmdOutcome × List ClientCall :=
  let res := o.get
  let calls := [ClientCall.callGetInvoice (o.Base.args.getD 0 "")]
  match res.2 with
  | some e => (.exitError ("error getting invoice : " ++ e), calls)
  | none =>
    match res.1 with
    | none => (.nilPointerPanic, calls)
    | some inv => (.displayed (.invoiceData { Invoice := inv }) none, calls)

/-- `invoiceItemsList.Run`: set `o.Base.Options` from the paging flags, parse
`args[0]` with `strconv.Atoi` (on failure print "error converting invoice
item id : <cause>" and exit 1 before any request), store the ID in
`o.InvoiceItemID`, call `o.listInvoiceItems()`; on error print "error
retrieving billing invoice item list : <cause>" and exit 1; on success wrap
the result in `BillingInvoiceItemsPrinter` and display it. -/
def invoiceItemsListRun (o : options) (fl : ParsedFlags) : CmdOutcome × List ClientCall :=
  let opts := GetPaging fl
  let o := { o with Base := { o.Base with opts := opts } }
  match Atoi (o.Base.args.getD 0 "") with
  | .error e => (.exitError ("error converting invoice item id : " ++ e), [])
  | .ok id =>
    let o := { o with InvoiceItemID := id }
    let res := o.listInvoiceItems
    let calls := [ClientCall.callListInvoiceItems id opts]
    match res.2.2 with
    | some e => (.exitError ("error retrieving billing invoice item list : " ++ e), calls)
    | none => (.displayed (.invoiceItemsData { InvoiceItems := res.1, Meta := res.2.1 }) none, calls)

/-- `historyList.Run`: set `o.Base.Options` from the paging flags, call
`o.listHistory()`; on error print "error retrieving billing history list :
<cause>" and exit 1; on success wrap the result in `BillingHistoryPrinter`
and display it. -/
def historyListRun (o : options) (fl : ParsedFlags) : CmdOutcome × List ClientCall :=
  let opts := GetPaging fl
  let o := { o with Base := { o.Base with opts := opts } }
  let res := o.listHistory
  let calls := [ClientCall.callListHistory opts]
  match res.2.2 with
  | some e => (.exitError ("error retrieving billing history list : " ++ e), calls)
  | none => (.displayed (.historyData { Billing := res.1, Meta := res.2.1 }) none, calls)

/-- Modelled from the spec: the CLI framework's dispatch of a matched billing
leaf (cobra and `utils.SetOptions` are outside src/). Per the spec's control
flow — "matches a leaf command → a pre-run hook validates that an
authentication credential is present → the leaf's run action ..." — the
subtree-wide `PersistentPreRunE` of `NewCmdBilling` runs first
(`utils.SetOptions` stores the positional arguments on the base, then the
guard fails with `APIKeyError` when `HasAuth` is unset), then the leaf's
`Args` validator, then the leaf's `Run` body. The second component is the
list of network requests issued, in order. -/
def invokeLeaf (client : BillingClient) (hasAuth : Bool) (fl : ParsedFlags)
    (args : List String) (leaf : LeafCmd) : CmdOutcome × List ClientCall :=
  let o : options :=
    { Base := { hasAuth := hasAuth, client := client, args := args,
                opts := { cursor := "", perPage := 0 } },
      InvoiceItemID := 0 }
  if !o.Base.hasAuth then (.preRunError APIKeyError, [])
  else
    match argsValidator leaf args with
    | some e => (.argsError e, [])
    | none =>
      match leaf with
      | .historyList => historyListRun o fl
      | .invoicesList => invoicesListRun o fl
      | .invoiceGet => invoiceGetRun o
      | .invoiceItemsList => invoiceItemsListRun o fl

end Billing

namespace Billing

def sampleInvoice : Invoice := { id := 123456, description := "sample", amount := 42 }
def sampleMeta : Meta := { total := 3, nextCursor := "abc", prevCursor := "" }
def sampleItems : List InvoiceItem := [{ description := "a", total := 1 }, { description := "b", total := 2 }, { description := "c", total := 3 }]

def sampleClient : BillingClient :=
  { listHistoryResp := fun _ => { items := [], meta := some sampleMeta, err := none }
    getInvoiceResp := fun _ => { invoice := some sampleInvoice, err := none }
    listInvoicesResp := fun _ => { items := [sampleInvoice], meta := some sampleMeta, err := none }
    listInvoiceItemsResp := fun _ _ => { items := sampleItems, meta := some sampleMeta, err := none } }


/-- A client whose every call fails with the error "boom"; used to witness
error-path theorems. -/
def failingClient : BillingClient :=
  { listHistoryResp := fun _ => { items := [], meta := none, err := some "boom" }
    getInvoiceResp := fun _ => { invoice := none, err := some "boom" }
    listInvoicesResp := fun _ => { items := [], meta := none, err := some "boom" }
    listInvoiceItemsResp := fun _ _ => { items := [], meta := none, err := some "boom" } }

/-- A client whose get call returns a nil invoice together with a nil error;
used to witness the nil-dereference theorem. -/
def nilClient : BillingClient :=
  { listHistoryResp := fun _ => { items := [], meta := none, err := none }
    getInvoiceResp := fun _ => { invoice := none, err := none }
    listInvoicesResp := fun _ => { items := [], meta := none, err := none }
    listInvoiceItemsResp := fun _ _ => { items := [], meta := none, err := none } }

/-- Helper: the history-list run issues exactly one ListHistory request with
the paging options read from the flags, on both its branches. -/
theorem calls_historyList (client : BillingClient) (fl : ParsedFlags)
    (args : List String) :
    (invokeLeaf client true fl args .historyList).2 =
      [ClientCall.callListHistory (GetPaging fl)] := by
  simp only [invokeLeaf, argsValidator, historyListRun, options.listHistory]
  cases h : (client.listHistoryResp (GetPaging fl)).err <;> simp [h]

/-- Helper: the invoice-list run issues exactly one ListInvoices request with
the paging options read from the flags, on both its branches. -/
theorem calls_invoicesList (client : BillingClient) (fl : ParsedFlags)
    (args : List String) :
    (invokeLeaf client true fl args .invoicesList).2 =
      [ClientCall.callListInvoices (GetPaging fl)] := by
  simp only [invokeLeaf, argsValidator, invoicesListRun, options.listInvoices]
  cases h : (client.listInvoicesResp (GetPaging fl)).err <;> simp [h]

/-- Helper: the invoice-get run issues exactly one GetInvoice request carrying
the raw first positional argument, on all of its branches. -/
theorem calls_invoiceGet (client : BillingClient) (fl : ParsedFlags)
    (s : String) (rest : List String) :
    (invokeLeaf client true fl (s :: rest) .invoiceGet).2 =
      [ClientCall.callGetInvoice s] := by
  simp only [invokeLeaf, argsValidator, requireInvoiceID, invoiceGetRun, options.get]
  cases herr : (client.getInvoiceResp s).err
  · cases hinv : (client.getInvoiceResp s).invoice <;> simp [herr, hinv]
  · simp [herr]

/-- Helper: when Atoi accepts the first positional argument, the invoice-items
run issues exactly one ListInvoiceItems request carrying the parsed ID and the
paging options read from the flags, on both its branches. -/
theorem calls_invoiceItems (client : BillingClient) (fl : ParsedFlags)
    (s : String) (rest : List String) (n : Int) (hA : Atoi s = .ok n) :
    (invokeLeaf client true fl (s :: rest) .invoiceItemsList).2 =
      [ClientCall.callListInvoiceItems n (GetPaging fl)] := by
  simp only [invokeLeaf, argsValidator, requireInvoiceID, invoiceItemsListRun,
    options.listInvoiceItems]
  cases h : (client.listInvoiceItemsResp n (GetPaging fl)).err <;> simp [hA, h]

/-- C1: without an authentication credential every billing leaf fails with the
authentication-missing error from the pre-run guard, before the run body, and
issues no client request. -/
theorem noAuth_fails_before_run (client : BillingClient) (fl : ParsedFlags)
    (args : List String) (leaf : LeafCmd) :
    invokeLeaf client false fl args leaf = (.preRunError APIKeyError, []) := rfl

/-- C2 (per-leaf request-error handling): any error from the request layer is
reported with the leaf-specific contextual prefix and aborts with exit status
1, after exactly one request (no retry). -/
theorem requestError_fatal (client : BillingClient) (fl : ParsedFlags)
    (args : List String) (e : String) :
    ((client.listHistoryResp (GetPaging fl)).err = some e →
      invokeLeaf client true fl args .historyList =
        (.exitError ("error retrieving billing history list : " ++ e),
         [.callListHistory (GetPaging fl)])) ∧
    ((client.listInvoicesResp (GetPaging fl)).err = some e →
      invokeLeaf client true fl args .invoicesList =
        (.exitError ("error retrieving billing invoice list : " ++ e),
         [.callListInvoices (GetPaging fl)])) ∧
    (∀ s rest, args = s :: rest →
      (client.getInvoiceResp s).err = some e →
      invokeLeaf client true fl args .invoiceGet =
        (.exitError ("error getting invoice : " ++ e), [.callGetInvoice s])) ∧
    (∀ s rest n, args = s :: rest → Atoi s = .ok n →
      (client.listInvoiceItemsResp n (GetPaging fl)).err = some e →
      invokeLeaf client true fl args .invoiceItemsList =
        (.exitError ("error retrieving billing invoice item list : " ++ e),
         [.callListInvoiceItems n (GetPaging fl)])) ∧
    (∀ m, exitCode (.exitError m) = 1) := by
  refine ⟨?_, ?_, ?_, ?_, fun _ => rfl⟩
  · intro h
    simp [invokeLeaf, argsValidator, historyListRun, options.listHistory, h]
  · intro h
    simp [invokeLeaf, argsValidator, invoicesListRun, options.listInvoices, h]
  · rintro s rest rfl h
    simp [invokeLeaf, argsValidator, requireInvoiceID, invoiceGetRun, options.get, h]
  · rintro s rest n rfl hA h
    simp [invokeLeaf, argsValidator, requireInvoiceID, invoiceItemsListRun,
      options.listInvoiceItems, hA, h]

theorem requestError_fatal_witness :
    invokeLeaf failingClient true (resolveFlags none none) [] .invoicesList =
      (.exitError ("error retrieving billing invoice list : " ++ "boom"),
       [.callListInvoices (GetPaging (resolveFlags none none))]) :=
  (requestError_fatal failingClient (resolveFlags none none) [] "boom").2.1 rfl

/-- C3 counterexample: `invoice get abc` does not fail with a conversion
error and does not issue zero requests — the run body forwards the raw string
"abc" straight to the client's GetInvoice call and displays the result. -/
theorem invoiceGet_no_integer_parse_cx :
    invokeLeaf sampleClient true (resolveFlags none none) ["abc"] .invoiceGet =
      (.displayed (.invoiceData { Invoice := sampleInvoice }) none,
       [ClientCall.callGetInvoice "abc"]) := by decide

/-- C3 amended: only `invoice items` parses its positional ID with Atoi — a
non-numeric argument there fails with a conversion error and zero requests —
while `invoice get` performs no integer parsing and forwards the raw argument
string to the client's GetInvoice call. -/
theorem idConversion_guard (client : BillingClient) (fl : ParsedFlags)
    (s : String) (rest : List String) (e : String) (hA : Atoi s = .error e) :
    invokeLeaf client true fl (s :: rest) .invoiceItemsList =
      (.exitError ("error converting invoice item id : " ++ e), []) ∧
    (invokeLeaf client true fl (s :: rest) .invoiceGet).2 =
      [ClientCall.callGetInvoice s] := by
  constructor
  · simp [invokeLeaf, argsValidator, requireInvoiceID, invoiceItemsListRun, hA]
  · exact calls_invoiceGet client fl s rest

theorem idConversion_guard_witness :
    invokeLeaf sampleClient true (resolveFlags none none) ["abc"] .invoiceItemsList =
      (.exitError ("error converting invoice item id : " ++
        "strconv.Atoi: parsing \"abc\": invalid syntax"), []) :=
  (idConversion_guard sampleClient (resolveFlags none none) "abc" []
    "strconv.Atoi: parsing \"abc\": invalid syntax" rfl).1

/-- C4: with zero positional arguments `invoice get` and `invoice items`
issue no request whatever the auth state and, when authentication is present,
fail with the "please provide an invoice ID" validator error before the run
body. (Under the spec's control flow the pre-run auth guard runs first, so
the validator error is only reached when authentication is present.) -/
theorem missingID_fails_before_run (client : BillingClient) (fl : ParsedFlags)
    (hasAuth : Bool) (leaf : LeafCmd)
    (hleaf : leaf = .invoiceGet ∨ leaf = .invoiceItemsList) :
    (invokeLeaf client hasAuth fl [] leaf).2 = [] ∧
    (hasAuth = true →
      invokeLeaf client hasAuth fl [] leaf =
        (.argsError "please provide an invoice ID", [])) := by
  rcases hleaf with rfl | rfl <;> cases hasAuth <;>
    simp [invokeLeaf, argsValidator, requireInvoiceID]

theorem missingID_fails_before_run_witness :
    invokeLeaf sampleClient true (resolveFlags none none) [] .invoiceGet =
      (.argsError "please provide an invoice ID", []) :=
  (missingID_fails_before_run sampleClient (resolveFlags none none) true
    .invoiceGet (Or.inl rfl)).2 rfl

/-- C5: each paginated leaf forwards to the client exactly the paging options
read from that invocation's flags, unmodified (the options struct is the
cursor and per-page flag values verbatim); in particular
`--cursor xyz --per-page 50` forwards exactly that pair to ListInvoices. -/
theorem paging_forwarded_unmodified (client : BillingClient) (fl : ParsedFlags)
    (args : List String) :
    GetPaging fl = { cursor := fl.cursor, perPage := fl.perPage } ∧
    (invokeLeaf client true fl args .historyList).2 =
      [ClientCall.callListHistory (GetPaging fl)] ∧
    (invokeLeaf client true fl args .invoicesList).2 =
      [ClientCall.callListInvoices (GetPaging fl)] ∧
    (∀ s rest n, args = s :: rest → Atoi s = .ok n →
      (invokeLeaf client true fl args .invoiceItemsList).2 =
        [ClientCall.callListInvoiceItems n (GetPaging fl)]) ∧
    GetPaging (resolveFlags (some "xyz") (some 50)) = { cursor := "xyz", perPage := 50 } := by
  refine ⟨rfl, calls_historyList client fl args, calls_invoicesList client fl args,
    ?_, rfl⟩
  rintro s rest n rfl hA
  exact calls_invoiceItems client fl s rest n hA

theorem paging_forwarded_unmodified_witness :
    (invokeLeaf sampleClient true (resolveFlags (some "xyz") (some 50)) ["7"]
        .invoiceItemsList).2 =
      [ClientCall.callListInvoiceItems 7 (GetPaging (resolveFlags (some "xyz") (some 50)))] :=
  (paging_forwarded_unmodified sampleClient (resolveFlags (some "xyz") (some 50))
    ["7"]).2.2.2.1 "7" [] 7 rfl rfl

/-- C6: on every success path the fetched result is wrapped unmodified in the
shape-specific display adapter handed to the printer: the adapter holds
exactly the items, meta (or invoice) the client returned. -/
theorem success_wrapped_unmodified (client : BillingClient) (fl : ParsedFlags)
    (args : List String) :
    ((client.listHistoryResp (GetPaging fl)).err = none →
      (invokeLeaf client true fl args .historyList).1 =
        .displayed (.historyData
          { Billing := (client.listHistoryResp (GetPaging fl)).items,
            Meta := (client.listHistoryResp (GetPaging fl)).meta }) none) ∧
    ((client.listInvoicesResp (GetPaging fl)).err = none →
      (invokeLeaf client true fl args .invoicesList).1 =
        .displayed (.invoicesData
          { Invoices := (client.listInvoicesResp (GetPaging fl)).items,
            Meta := (client.listInvoicesResp (GetPaging fl)).meta }) none) ∧
    (∀ s rest inv, args = s :: rest →
      client.getInvoiceResp s = { invoice := some inv, err := none } →
      (invokeLeaf client true fl args .invoiceGet).1 =
        .displayed (.invoiceData { Invoice := inv }) none) ∧
    (∀ s rest n, args = s :: rest → Atoi s = .ok n →
      (client.listInvoiceItemsResp n (GetPaging fl)).err = none →
      (invokeLeaf client true fl args .invoiceItemsList).1 =
        .displayed (.invoiceItemsData
          { InvoiceItems := (client.listInvoiceItemsResp n (GetPaging fl)).items,
            Meta := (client.listInvoiceItemsResp n (GetPaging fl)).meta }) none) := by
  refine ⟨?_, ?_, ?_, ?_⟩
  · intro h
    simp [invokeLeaf, argsValidator, historyListRun, options.listHistory, h]
  · intro h
    simp [invokeLeaf, argsValidator, invoicesListRun, options.listInvoices, h]
  · rintro s rest inv rfl h
    simp [invokeLeaf, argsValidator, requireInvoiceID, invoiceGetRun, options.get, h]
  · rintro s rest n rfl hA h
    simp [invokeLeaf, argsValidator, requireInvoiceID, invoiceItemsListRun,
      options.listInvoiceItems, hA, h]

theorem success_wrapped_unmodified_witness :
    (invokeLeaf sampleClient true (resolveFlags none none) ["123456"]
        .invoiceItemsList).1 =
      .displayed (.invoiceItemsData
        { InvoiceItems := sampleItems, Meta := some sampleMeta }) none :=
  (success_wrapped_unmodified sampleClient (resolveFlags none none)
    ["123456"]).2.2.2 "123456" [] 123456 rfl rfl rfl

/-- C7: for a numeric positional argument, the integer Atoi parses from
`args[0]` is exactly the invoice identifier passed (through the
InvoiceItemID field) to the client's ListInvoiceItems call. -/
theorem invoiceItems_id_forwarded (client : BillingClient) (fl : ParsedFlags)
    (s : String) (rest : List String) (n : Int) (hA : Atoi s = .ok n) :
    (invokeLeaf client true fl (s :: rest) .invoiceItemsList).2 =
      [ClientCall.callListInvoiceItems n (GetPaging fl)] :=
  calls_invoiceItems client fl s rest n hA

theorem invoiceItems_id_forwarded_witness :
    (invokeLeaf sampleClient true (resolveFlags none none) ["123456"]
        .invoiceItemsList).2 =
      [ClientCall.callListInvoiceItems 123456 (GetPaging (resolveFlags none none))] :=
  invoiceItems_id_forwarded sampleClient (resolveFlags none none) "123456" [] 123456 rfl

/-- C8: when the per-page flag is omitted, every paginated leaf forwards a
per-page value equal to the documented default 100. -/
theorem perPage_default_100 (client : BillingClient) (co : Option String)
    (args : List String) :
    PerPageDefault = 100 ∧
    (invokeLeaf client true (resolveFlags co none) args .historyList).2 =
      [ClientCall.callListHistory { cursor := co.getD "", perPage := 100 }] ∧
    (invokeLeaf client true (resolveFlags co none) args .invoicesList).2 =
      [ClientCall.callListInvoices { cursor := co.getD "", perPage := 100 }] ∧
    (∀ s rest n, args = s :: rest → Atoi s = .ok n →
      (invokeLeaf client true (resolveFlags co none) args .invoiceItemsList).2 =
        [ClientCall.callListInvoiceItems n { cursor := co.getD "", perPage := 100 }]) := by
  have hGP : GetPaging (resolveFlags co none) = { cursor := co.getD "", perPage := 100 } := rfl
  refine ⟨rfl, ?_, ?_, ?_⟩
  · rw [calls_historyList client (resolveFlags co none) args, hGP]
  · rw [calls_invoicesList client (resolveFlags co none) args, hGP]
  · rintro s rest n rfl hA
    rw [calls_invoiceItems client (resolveFlags co none) s rest n hA, hGP]

theorem perPage_default_100_witness :
    (invokeLeaf sampleClient true (resolveFlags none none) [] .invoicesList).2 =
      [ClientCall.callListInvoices { cursor := "", perPage := 100 }] :=
  (perPage_default_100 sampleClient none []).2.2.1

/-- C9: the invoice-get run dereferences the returned invoice pointer
whenever the returned error is nil — a nil invoice with a nil error is a
nil-pointer fault — so the success path is fault-free exactly under the
precondition that the client never returns a nil invoice with a nil error. -/
theorem invoiceGet_nil_deref (client : BillingClient) (fl : ParsedFlags)
    (s : String) (rest : List String) :
    (client.getInvoiceResp s = { invoice := none, err := none } →
      (invokeLeaf client true fl (s :: rest) .invoiceGet).1 = .nilPointerPanic) ∧
    ((∀ t, (client.getInvoiceResp t).err = none →
        (client.getInvoiceResp t).invoice ≠ none) →
      (invokeLeaf client true fl (s :: rest) .invoiceGet).1 ≠ .nilPointerPanic) := by
  constructor
  · intro h
    simp [invokeLeaf, argsValidator, requireInvoiceID, invoiceGetRun, options.get, h]
  · intro hpre
    simp only [invokeLeaf, argsValidator, requireInvoiceID, invoiceGetRun, options.get]
    cases herr : (client.getInvoiceResp s).err
    · cases hinv : (client.getInvoiceResp s).invoice
      · exact absurd hinv (hpre s herr)
      · simp [herr, hinv]
    · simp [herr]

theorem invoiceGet_nil_deref_witness :
    (invokeLeaf nilClient true (resolveFlags none none) ["123456"] .invoiceGet).1 =
      .nilPointerPanic :=
  (invoiceGet_nil_deref nilClient (resolveFlags none none) "123456" []).1 rfl

/-- C10: whenever a run body reaches the printer's Display call, the error
argument it passes is nil — every non-nil request error has already
terminated the invocation. -/
theorem display_err_nil (client : BillingClient) (hasAuth : Bool)
    (fl : ParsedFlags) (args : List String) (leaf : LeafCmd)
    (d : PrinterData) (e : Option String)
    (h : (invokeLeaf client hasAuth fl args leaf).1 = .displayed d e) :
    e = none := by
  cases hasAuth
  · simp [invokeLeaf] at h
  · cases leaf
    case historyList =>
      simp only [invokeLeaf, argsValidator, historyListRun, options.listHistory] at h
      cases herr : (client.listHistoryResp (GetPaging fl)).err <;>
        simp [herr] at h
      exact h.2.symm
    case invoicesList =>
      simp only [invokeLeaf, argsValidator, invoicesListRun, options.listInvoices] at h
      cases herr : (client.listInvoicesResp (GetPaging fl)).err <;>
        simp [herr] at h
      exact h.2.symm
    case invoiceGet =>
      cases args with
      | nil => simp [invokeLeaf, argsValidator, requireInvoiceID] at h
      | cons s rest =>
        simp only [invokeLeaf, argsValidator, requireInvoiceID, invoiceGetRun,
          options.get, List.length_cons] at h
        cases herr : (client.getInvoiceResp s).err
        · cases hinv : (client.getInvoiceResp s).invoice <;> simp [herr, hinv] at h
          exact h.2.symm
        · simp [herr] at h
    case invoiceItemsList =>
      cases args with
      | nil => simp [invokeLeaf, argsValidator, requireInvoiceID] at h
      | cons s rest =>
        simp only [invokeLeaf, argsValidator, requireInvoiceID, invoiceItemsListRun,
          options.listInvoiceItems, List.length_cons] at h
        cases hA : Atoi s
        · simp [hA] at h
        · rename_i n
          cases herr : (client.listInvoiceItemsResp n (GetPaging fl)).err <;>
            simp [hA, herr] at h
          exact h.2.symm

theorem display_err_nil_witness :
    (invokeLeaf sampleClient true (resolveFlags none none) [] .invoicesList).1 =
      .displayed (.invoicesData { Invoices := [sampleInvoice], Meta := some sampleMeta })
        none ∧
    (Option.none : Option String) = none :=
  ⟨by decide,
   display_err_nil sampleClient true (resolveFlags none none) [] .invoicesList
     (.invoicesData { Invoices := [sampleInvoice], Meta := some sampleMeta }) none
     (by decide)⟩
